import Mathlib

/-!
Verification development for the VolumeTracker repository.

The embedding follows the source files:
* `src/utils/coingecko_api.py` — the CoinGecko client (`_make_request`,
  `_safe_float`, `get_market_data`).
* `src/main.py` — the enrichment (`fetch_crypto_data`) and the filter step
  inside `main` (lines 193-212).

Numeric values are modelled as exact rationals.  The two places where the
Python/pandas code can produce a non-finite float or raise a `ZeroDivisionError`
are modelled explicitly: pandas columns take values in `PFloat`
(finite / +inf / -inf / NaN, with IEEE comparison semantics) and plain Python
division is the partial operation `pydiv` returning `none` on a zero divisor
(a raised `ZeroDivisionError`).
-/

/-- A JSON value as delivered by the provider: the `RawAssetRecord`s of the
spec are (when well formed) `JsonVal.obj` entries of the response array. -/
inductive JsonVal where
  | null
  | bool (b : Bool)
  | num (q : ℚ)
  | str (s : String)
  | arr (elems : List JsonVal)
  | obj (fields : List (String × JsonVal))

/-- Whether a JSON value is an object (a Python mapping). -/
def JsonVal.isObj : JsonVal → Bool
  | JsonVal.obj _ => true
  | _ => false

/-- Whether a JSON value is a string. -/
def JsonVal.isStr : JsonVal → Bool
  | JsonVal.str _ => true
  | _ => false

/-- Python `dict.get(key)` on the parsed object: `none` when the key is
absent.  Provider objects come from JSON parsing, so keys are unique. -/
def getField (fields : List (String × JsonVal)) (key : String) : Option JsonVal :=
  (fields.find? (fun p => p.1 == key)).map (fun p => p.2)

/-- Digits of a decimal literal folded into a natural number. -/
def digitsToNat (cs : List Char) : ℕ :=
  cs.foldl (fun a c => 10 * a + (c.toNat - 48)) 0

/-- A nonempty all-digit character list parsed as a natural number. -/
def natOfDigits? (cs : List Char) : Option ℕ :=
  if cs.isEmpty then none
  else if cs.all Char.isDigit then some (digitsToNat cs) else none

/-- Consume an optional leading sign; returns (isNegative, rest). -/
def parseSign : List Char → Bool × List Char
  | '-' :: rest => (true, rest)
  | '+' :: rest => (false, rest)
  | cs => (false, cs)

/-- Split at the first occurrence of `c`; `none` when `c` does not occur. -/
def breakOn (c : Char) : List Char → Option (List Char × List Char)
  | [] => none
  | x :: xs =>
      if x = c then some ([], xs)
      else (breakOn c xs).map (fun p => (x :: p.1, p.2))

/-- Mantissa of a decimal literal: digits with at most one decimal point and
at least one digit overall (Python accepts `1.` and `.5`, rejects `.`). -/
def parseMantissa? (cs : List Char) : Option ℚ :=
  match breakOn '.' cs with
  | none => (natOfDigits? cs).map (fun n => (n : ℚ))
  | some (ip, fp) =>
      if fp.contains '.' then none
      else
        let ds := ip ++ fp
        if ds.isEmpty then none
        else if ds.all Char.isDigit then
          some ((digitsToNat ds : ℚ) / (10 : ℚ) ^ fp.length)
        else none

/-- Python `float(s)` on finite decimal literals: optional sign, digits with
an optional decimal point, optional exponent part.  (The special spellings
`inf`/`nan` and embedded underscores/whitespace accepted by CPython do not
occur in provider data and are treated as parse failures.) -/
def parseFloat? (s : String) : Option ℚ :=
  let cs0 := s.toLower.data
  let p := parseSign cs0
  let signed : ℚ → ℚ := fun q => if p.1 then -q else q
  match breakOn 'e' p.2 with
  | none => (parseMantissa? p.2).map signed
  | some (m, ex) =>
      (parseMantissa? m).bind (fun q =>
        let pe := parseSign ex
        (natOfDigits? pe.2).map (fun n =>
          signed (if pe.1 then q / (10 : ℚ) ^ n else q * (10 : ℚ) ^ n)))

/-- `CoinGeckoAPI._safe_float` (coingecko_api.py lines 36-43) applied to the
result of `entry.get(key)`: `None` (missing key or JSON null) gives the
default 0, numbers pass through, strings go through `float()` (`ValueError`
gives 0), booleans convert as 1/0, lists/dicts raise `TypeError` giving 0. -/
def safe_float : Option JsonVal → ℚ
  | none => 0
  | some JsonVal.null => 0
  | some (JsonVal.num q) => q
  | some (JsonVal.str s) => (parseFloat? s).getD 0
  | some (JsonVal.bool b) => if b then 1 else 0
  | some (JsonVal.arr _) => 0
  | some (JsonVal.obj _) => 0

/-- Plain Python float division: `none` models a raised `ZeroDivisionError`. -/
def pydiv (a b : ℚ) : Option ℚ :=
  if b = 0 then none else some (a / b)

/-- The 24h volume-change computation, coingecko_api.py lines 84-90:

    if current_price > 0 and price_change_24h != 0:
        price_24h_ago = current_price / (1 + price_change_24h / 100)
        volume_24h_ago = current_volume * price_24h_ago / current_price
        volume_change_24h = ((current_volume - volume_24h_ago) / volume_24h_ago * 100)
                            if volume_24h_ago > 0 else 0
    else:
        volume_change_24h = 0

`none` is a `ZeroDivisionError` escaping to the per-entry handler. -/
def volumeChange24h (current_price price_change_24h current_volume : ℚ) : Option ℚ :=
  if 0 < current_price ∧ price_change_24h ≠ 0 then
    (pydiv current_price (1 + price_change_24h / 100)).bind (fun price_24h_ago =>
      (pydiv (current_volume * price_24h_ago) current_price).map (fun volume_24h_ago =>
        if 0 < volume_24h_ago then (current_volume - volume_24h_ago) / volume_24h_ago * 100
        else 0))
  else some 0

/-- `entry.get('symbol', '').upper()` (coingecko_api.py line 96): a missing
key defaults to the empty string; `.upper()` on anything that is not a Python
string raises `AttributeError` (modelled as `none`), which the per-entry
handler turns into a skipped record. -/
def getSymbol (fields : List (String × JsonVal)) : Option String :=
  match getField fields ("symbol") with
  | none => some ("")
  | some (JsonVal.str s) => some s.toUpper
  | some _ => none

/-- The normalized per-asset record built in coingecko_api.py lines 93-104
(the spec's `AssetRecord`, with the derived heuristic fields). -/
structure ProcessedEntry where
  id : JsonVal
  name : JsonVal
  symbol : String
  current_price : ℚ
  market_cap : ℚ
  total_volume : ℚ
  price_change_percentage_24h : ℚ
  volume_change_percentage_5m : ℚ
  volume_change_percentage_1h : ℚ
  volume_change_percentage_24h : ℚ

/-- One iteration of the `for entry in data` loop of `get_market_data`
(coingecko_api.py lines 71-109).  `none` means the `except` branch ran and
the record was skipped: the entry is not a mapping (`.get` raises
`AttributeError`), the 24h volume-change computation raised
`ZeroDivisionError`, or `'symbol'` held a non-string (`.upper()` raises). -/
def processEntry (entry : JsonVal) : Option ProcessedEntry :=
  match entry with
  | JsonVal.obj fields =>
      let current_volume := safe_float (getField fields ("total_volume"))
      let market_cap := safe_float (getField fields ("market_cap"))
      let current_price := safe_float (getField fields ("current_price"))
      let price_change_1h := safe_float (getField fields ("price_change_percentage_1h_in_currency"))
      let price_change_24h := safe_float (getField fields ("price_change_percentage_24h"))
      let volume_change_5min := price_change_1h / 12
      let volume_change_1h := price_change_1h * 1.5
      (volumeChange24h current_price price_change_24h current_volume).bind
        (fun volume_change_24h =>
          (getSymbol fields).map (fun sym =>
            { id := (getField fields ("id")).getD (JsonVal.str (""))
              name := (getField fields ("name")).getD (JsonVal.str (""))
              symbol := sym
              current_price := current_price
              market_cap := market_cap
              total_volume := current_volume
              price_change_percentage_24h := price_change_24h
              volume_change_percentage_5m := volume_change_5min
              volume_change_percentage_1h := volume_change_1h
              volume_change_percentage_24h := volume_change_24h }))
  | _ => none

/-- `get_market_data` (coingecko_api.py lines 65-111) applied to the result
of `_make_request`: a falsy response (`None` from a failed request, or an
empty array) yields `[]`; otherwise every entry goes through the loop body
and skipped entries are dropped. -/
def get_market_data : Option (List JsonVal) → List ProcessedEntry
  | none => []
  | some entries => entries.filterMap processEntry

/-- Outcome of one HTTP attempt inside `_make_request`:
a 2xx response with a JSON array body, an HTTP 429, another non-success
status (`raise_for_status` raises), or a timeout/connection error. -/
inductive Attempt where
  | ok (body : List JsonVal)
  | rateLimited
  | httpError
  | transportError

/-- `_make_request` (coingecko_api.py lines 18-34) run against a script of
attempt outcomes, one per HTTP request actually issued.  The first component
is `some r` when the function returns `r` (`r = none` is Python `None` after
a caught `RequestException`), and `none` when the script is exhausted while
the function is still retrying (the retry loop has no bound).  The second
component counts the seconds spent in `time.sleep(60)` calls. -/
def makeRequest : List Attempt → Option (Option (List JsonVal)) × ℕ
  | [] => (none, 0)
  | Attempt.ok body :: _ => (some (some body), 0)
  | Attempt.rateLimited :: rest =>
      let r := makeRequest rest
      (r.1, 60 + r.2)
  | Attempt.httpError :: _ => (some none, 0)
  | Attempt.transportError :: _ => (some none, 0)

/-- `get_market_data` including its `_make_request` call: `some assets` when
the request loop returned (with `[]` on a failed request), `none` when the
attempt script ran out mid-retry. -/
def fetchMarketData (attempts : List Attempt) : Option (List ProcessedEntry) :=
  match (makeRequest attempts).1 with
  | none => none
  | some d => some (get_market_data d)

/-- A pandas float64 cell: a finite rational or one of the IEEE special
values produced by dividing by zero (`inf`, `-inf`, `nan`). -/
inductive PFloat where
  | finite (q : ℚ)
  | inf
  | negInf
  | nan
deriving DecidableEq

/-- Elementwise pandas/numpy division of two finite columns: a zero divisor
gives `inf`, `-inf` or `nan` by the sign of the numerator (numpy warns but
does not raise). -/
def divPF (a b : ℚ) : PFloat :=
  if b = 0 then
    if 0 < a then PFloat.inf else if a < 0 then PFloat.negInf else PFloat.nan
  else PFloat.finite (a / b)

/-- Apply a finite-value operation to a cell.  Used for `* 100` and
`.round(2)`, both of which fix `inf`, `-inf` and `nan` (multiplying by the
positive constant 100 keeps the sign of an infinity). -/
def PFloat.mapFinite (f : ℚ → ℚ) : PFloat → PFloat
  | PFloat.finite q => PFloat.finite (f q)
  | x => x

/-- `pd.to_numeric(col, errors='coerce').fillna(0.0)` on a float column
(main.py lines 56-58): `NaN` becomes 0.0, everything else (infinities
included) is unchanged. -/
def coerceFill : PFloat → PFloat
  | PFloat.nan => PFloat.finite 0
  | x => x

/-- The finite value of a cell (0 for the special values); used to sum a
column whose cells are known to be finite. -/
def PFloat.toRat : PFloat → ℚ
  | PFloat.finite q => q
  | _ => 0

/-- IEEE `>` of a cell against a finite constant, as pandas evaluates
`col > c`: `nan` compares false, `inf` true, `-inf` false. -/
def PFloat.gtQ : PFloat → ℚ → Bool
  | PFloat.finite q, c => decide (c < q)
  | PFloat.inf, _ => true
  | PFloat.negInf, _ => false
  | PFloat.nan, _ => false

/-- IEEE `>=` of a cell against a finite constant, as pandas evaluates
`col >= c`. -/
def PFloat.geQ : PFloat → ℚ → Bool
  | PFloat.finite q, c => decide (c ≤ q)
  | PFloat.inf, _ => true
  | PFloat.negInf, _ => false
  | PFloat.nan, _ => false

/-- numpy rounding to an integer: round half to even (the tie-breaking rule
of `numpy.round`, which pandas `.round` delegates to). -/
def roundHalfEven (q : ℚ) : ℤ :=
  if q - (⌊q⌋ : ℚ) < 1 / 2 then ⌊q⌋
  else if 1 / 2 < q - (⌊q⌋ : ℚ) then ⌊q⌋ + 1
  else if ⌊q⌋ % 2 = 0 then ⌊q⌋ else ⌊q⌋ + 1

/-- `Series.round(2)` on a finite cell: round half to even at two decimals. -/
def round2 (q : ℚ) : ℚ :=
  (roundHalfEven (q * 100) : ℚ) / 100

/-- A row of the enriched DataFrame built in `fetch_crypto_data`: the
normalized record plus the two derived columns (the spec's
`EnrichedAsset`; the batch timestamp column carries no data dependence and
is omitted). -/
structure EnrichedRow where
  entry : ProcessedEntry
  volume_market_cap_ratio : PFloat
  market_dominance : PFloat

/-- `df['market_cap'].sum()` (main.py line 34): the spec's
`total_market_cap`. -/
def totalMarketCap (data : List ProcessedEntry) : ℚ :=
  (data.map (fun e => e.market_cap)).sum

/-- The DataFrame computation of `fetch_crypto_data` (main.py lines 30-58).
`_safe_float` guarantees every input column is finite, so the `fillna(0)` /
`fillna(1)` calls on lines 37-38 are identities and are not modelled.
When `total_market_cap > 0`:

    df['volume_market_cap_ratio'] = (df['total_volume'] / df['market_cap'] * 100).round(2)
    df['market_dominance'] = (df['market_cap'] / total_market_cap * 100).round(2)

otherwise both columns are the constant 0.  Lines 56-58 then coerce the
listed numeric columns with `pd.to_numeric(...).fillna(0.0)`; on the columns
other than the two derived ones this is the identity (they are finite). -/
def enrichData (data : List ProcessedEntry) : List EnrichedRow :=
  let total := totalMarketCap data
  if 0 < total then
    data.map (fun e =>
      { entry := e
        volume_market_cap_ratio :=
          coerceFill ((divPF e.total_volume e.market_cap).mapFinite (fun q => round2 (q * 100)))
        market_dominance :=
          coerceFill ((divPF e.market_cap total).mapFinite (fun q => round2 (q * 100))) })
  else
    data.map (fun e =>
      { entry := e
        volume_market_cap_ratio := PFloat.finite 0
        market_dominance := PFloat.finite 0 })

/-- `fetch_crypto_data` (main.py lines 21-64): an empty or failed fetch
returns `None` before any DataFrame is built. -/
def fetch_crypto_data (data : List ProcessedEntry) : Option (List EnrichedRow) :=
  if data.isEmpty then none else some (enrichData data)

/-- Default filter mode, main.py line 196:
`filtered_df = df[df['volume_market_cap_ratio'] > 100]`. -/
def defaultFilter (rows : List EnrichedRow) : List EnrichedRow :=
  rows.filter (fun r => r.volume_market_cap_ratio.gtQ 100)

/-- Custom filter mode, main.py lines 208-212:

    filtered_df = df[(df['volume_market_cap_ratio'] >= min_ratio) &
                     (df['total_volume'] >= min_volume) &
                     (df['market_dominance'] >= min_dominance)]
-/
def customFilter (rows : List EnrichedRow) (min_ratio min_volume min_dominance : ℚ) :
    List EnrichedRow :=
  rows.filter (fun r =>
    r.volume_market_cap_ratio.geQ min_ratio
      && decide (min_volume ≤ r.entry.total_volume)
      && r.market_dominance.geQ min_dominance)

/-- Written from the spec claim C1 as amended: the ratio column value of a
single asset, as a function of the batch total, the asset's volume and its
market cap. -/
def specRatio (total vol mcap : ℚ) : PFloat :=
  if 0 < total then
    if mcap ≠ 0 then PFloat.finite (round2 (vol / mcap * 100))
    else if 0 < vol then PFloat.inf
    else if vol < 0 then PFloat.negInf
    else PFloat.finite 0
  else PFloat.finite 0

/-- Written from the spec claim C2: the ratio column of a row sequence is
non-increasing (the spec's "ordered strictly descending ... ties broken by
input order" implies exactly this on the ratio column). -/
def specRatioNonIncreasing (rows : List EnrichedRow) : Prop :=
  List.Chain'
    (fun a b => b.volume_market_cap_ratio.toRat ≤ a.volume_market_cap_ratio.toRat) rows

/-- Written from the spec claim C3 as amended: the 24h volume-change value.
For `current_price > 0` and `price_change_pct_24h` not 0 and not -100, the
implied prior volume is the current volume scaled by the ratio of the
implied prior price to the current price, and the result is the percentage
change from that prior volume to the current volume when the prior volume is
positive, else 0; when `current_price` is 0 (or negative) or the price
change is 0 the result is 0; at `price_change_pct_24h = -100` with positive
price the computation fails with a division by zero (`none`). -/
def specVolumeChange24h (p pct v : ℚ) : Option ℚ :=
  if 0 < p ∧ pct ≠ 0 then
    if pct = -100 then none
    else
      let prior := v * ((p / (1 + pct / 100)) / p)
      some (if 0 < prior then (v - prior) / prior * 100 else 0)
  else some 0

/-- A normalized record with the given symbol, market cap and volume (the
remaining fields are irrelevant to enrichment and filtering). -/
def mkEntry (sym : String) (mcap vol : ℚ) : ProcessedEntry :=
  { id := JsonVal.str (sym)
    name := JsonVal.str (sym)
    symbol := sym
    current_price := 1
    market_cap := mcap
    total_volume := vol
    price_change_percentage_24h := 0
    volume_change_percentage_5m := 0
    volume_change_percentage_1h := 0
    volume_change_percentage_24h := 0 }

/-- A well-formed raw JSON record with the given symbol, market cap and
volume. -/
def mkRawEntry (sym : String) (mcap vol : ℚ) : JsonVal :=
  JsonVal.obj
    [("id", JsonVal.str (sym)), ("name", JsonVal.str (sym)),
     ("symbol", JsonVal.str (sym)), ("current_price", JsonVal.num 1),
     ("market_cap", JsonVal.num mcap), ("total_volume", JsonVal.num vol)]

/-! ### Arithmetic facts about the rounding function -/

theorem roundHalfEven_sub_le (q : ℚ) : |(roundHalfEven q : ℚ) - q| ≤ 1 / 2 := by
  have h1 : (⌊q⌋ : ℚ) ≤ q := Int.floor_le q
  have h2 : q < (⌊q⌋ : ℚ) + 1 := Int.lt_floor_add_one q
  unfold roundHalfEven
  split_ifs with ha hb hc <;> rw [abs_le] <;> push_cast <;> constructor <;> linarith

theorem round2_sub_le (q : ℚ) : |round2 q - q| ≤ 1 / 200 := by
  have h := roundHalfEven_sub_le (q * 100)
  have : round2 q - q = ((roundHalfEven (q * 100) : ℚ) - q * 100) / 100 := by
    unfold round2; ring
  rw [this]
  rw [abs_le] at h
  rw [abs_le]
  constructor <;> linarith [h.1, h.2]

theorem round2_nonneg {q : ℚ} (h : 0 ≤ q) : 0 ≤ round2 q := by
  have hb := roundHalfEven_sub_le (q * 100)
  rw [abs_le] at hb
  have hz : (-1 : ℤ) < roundHalfEven (q * 100) := by
    by_contra hc
    push_neg at hc
    have : ((roundHalfEven (q * 100) : ℚ)) ≤ -1 := by exact_mod_cast hc
    nlinarith
  have hz0 : (0 : ℤ) ≤ roundHalfEven (q * 100) := by omega
  unfold round2
  have : (0 : ℚ) ≤ (roundHalfEven (q * 100) : ℚ) := by exact_mod_cast hz0
  linarith

theorem round2_le_hundred {q : ℚ} (h : q ≤ 100) : round2 q ≤ 100 := by
  have hb := roundHalfEven_sub_le (q * 100)
  rw [abs_le] at hb
  have hz : roundHalfEven (q * 100) < 10001 := by
    by_contra hc
    push_neg at hc
    have : (10001 : ℚ) ≤ ((roundHalfEven (q * 100) : ℚ)) := by exact_mod_cast hc
    nlinarith
  have hz0 : roundHalfEven (q * 100) ≤ 10000 := by omega
  unfold round2
  have : ((roundHalfEven (q * 100) : ℚ)) ≤ 10000 := by exact_mod_cast hz0
  linarith

/-! ### List summation helpers -/

theorem sum_map_mul_right {α : Type} (l : List α) (f : α → ℚ) (c : ℚ) :
    (l.map (fun a => f a * c)).sum = (l.map f).sum * c := by
  induction l with
  | nil => simp
  | cons x xs ih => simp [ih, add_mul]

theorem abs_sum_sub_sum_le {α : Type} (l : List α) (f g : α → ℚ) (c : ℚ)
    (h : ∀ a ∈ l, |f a - g a| ≤ c) :
    |(l.map f).sum - (l.map g).sum| ≤ (l.length : ℚ) * c := by
  induction l with
  | nil => simp
  | cons x xs ih =>
    have h1 : |f x - g x| ≤ c := h x (by simp)
    have h2 : |(xs.map f).sum - (xs.map g).sum| ≤ (xs.length : ℚ) * c :=
      ih (fun a ha => h a (by simp [ha]))
    simp only [List.map_cons, List.sum_cons, List.length_cons]
    have key : f x + (xs.map f).sum - (g x + (xs.map g).sum)
        = (f x - g x) + ((xs.map f).sum - (xs.map g).sum) := by ring
    rw [key]
    calc |(f x - g x) + ((xs.map f).sum - (xs.map g).sum)|
        ≤ |f x - g x| + |(xs.map f).sum - (xs.map g).sum| := abs_add _ _
      _ ≤ c + (xs.length : ℚ) * c := add_le_add h1 h2
      _ = ((xs.length : ℚ) + 1) * c := by ring
      _ = ((xs.length + 1 : ℕ) : ℚ) * c := by push_cast; ring

theorem eq_zero_of_mem_of_sum_eq_zero {α : Type} {l : List α} {f : α → ℚ}
    (hnn : ∀ a ∈ l, 0 ≤ f a) (hs : (l.map f).sum = 0) {a : α} (ha : a ∈ l) : f a = 0 := by
  have hle : f a ≤ (l.map f).sum := by
    apply List.single_le_sum (l := l.map f)
    · intro x hx
      obtain ⟨b, hb, rfl⟩ := List.mem_map.mp hx
      exact hnn b hb
    · exact List.mem_map.mpr ⟨a, ha, rfl⟩
  have := hnn a ha
  linarith [hs ▸ hle]

/-! ### Characterizations of the enrichment step -/

theorem enrichData_dominance_of_pos {data : List ProcessedEntry}
    (h : 0 < totalMarketCap data) :
    (enrichData data).map (fun r => r.market_dominance)
      = data.map (fun e =>
          PFloat.finite (round2 (e.market_cap / totalMarketCap data * 100))) := by
  unfold enrichData
  rw [if_pos h]
  simp only [List.map_map]
  apply List.map_congr_left
  intro e _
  simp [divPF, coerceFill, PFloat.mapFinite, h.ne']

theorem enrichData_ratio_eq_specRatio (data : List ProcessedEntry) :
    (enrichData data).map (fun r => r.volume_market_cap_ratio)
      = data.map (fun e =>
          specRatio (totalMarketCap data) e.total_volume e.market_cap) := by
  unfold enrichData specRatio
  by_cases h : 0 < totalMarketCap data
  · rw [if_pos h]
    simp only [List.map_map]
    apply List.map_congr_left
    intro e _
    simp only [Function.comp, if_pos h]
    by_cases hm : e.market_cap = 0
    · simp only [hm, ne_eq, not_true_eq_false, if_false, divPF, if_pos rfl]
      by_cases hv : 0 < e.total_volume
      · simp [hv, PFloat.mapFinite, coerceFill]
      · by_cases hv2 : e.total_volume < 0
        · simp [hv, hv2, PFloat.mapFinite, coerceFill]
        · simp [hv, hv2, PFloat.mapFinite, coerceFill]
    · simp [divPF, hm, PFloat.mapFinite, coerceFill]
  · rw [if_neg h]
    simp only [List.map_map]
    apply List.map_congr_left
    intro e _
    simp [if_neg h]

theorem volumeChange24h_eq_spec (p pct v : ℚ) :
    volumeChange24h p pct v = specVolumeChange24h p pct v := by
  unfold volumeChange24h specVolumeChange24h pydiv
  by_cases hc : 0 < p ∧ pct ≠ 0
  · rw [if_pos hc, if_pos hc]
    by_cases hd : pct = -100
    · have hz : 1 + pct / 100 = 0 := by rw [hd]; norm_num
      rw [if_pos hz, if_pos hd]
      simp
    · have hz : 1 + pct / 100 ≠ 0 := by
        intro h0
        exact hd (by linarith)
      rw [if_neg hz, if_neg hd]
      have hp : p ≠ 0 := ne_of_gt hc.1
      simp only [Option.bind, Option.map, if_neg hp]
      rw [mul_div_assoc]
  · rw [if_neg hc, if_neg hc]

/-- `processEntry` on a mapping, with the `let`-bindings spelled out (pure
zeta/iota unfolding of the definition). -/
theorem processEntry_obj (fields : List (String × JsonVal)) :
    processEntry (JsonVal.obj fields)
      = (volumeChange24h (safe_float (getField fields ("current_price")))
           (safe_float (getField fields ("price_change_percentage_24h")))
           (safe_float (getField fields ("total_volume")))).bind
          (fun vc =>
            (getSymbol fields).map (fun sym =>
              { id := (getField fields ("id")).getD (JsonVal.str (""))
                name := (getField fields ("name")).getD (JsonVal.str (""))
                symbol := sym
                current_price := safe_float (getField fields ("current_price"))
                market_cap := safe_float (getField fields ("market_cap"))
                total_volume := safe_float (getField fields ("total_volume"))
                price_change_percentage_24h :=
                  safe_float (getField fields ("price_change_percentage_24h"))
                volume_change_percentage_5m :=
                  safe_float (getField fields ("price_change_percentage_1h_in_currency")) / 12
                volume_change_percentage_1h :=
                  safe_float (getField fields ("price_change_percentage_1h_in_currency")) * 1.5
                volume_change_percentage_24h := vc })) := rfl

theorem processEntry_not_obj {e : JsonVal} (h : e.isObj = false) : processEntry e = none := by
  cases e <;> simp_all [processEntry, JsonVal.isObj]

theorem get_market_data_skip {e : JsonVal} (xs ys : List JsonVal)
    (h : processEntry e = none) :
    get_market_data (some (xs ++ e :: ys)) = get_market_data (some (xs ++ ys)) := by
  simp [get_market_data, List.filterMap_append, List.filterMap_cons, h]

/-- A normalized record built by `get_market_data` from `mkRawEntry`. -/
theorem processEntry_mkRawEntry (sym : String) (mcap vol : ℚ) :
    processEntry (mkRawEntry sym mcap vol)
      = some { id := JsonVal.str (sym), name := JsonVal.str (sym), symbol := sym.toUpper,
               current_price := 1, market_cap := mcap, total_volume := vol,
               price_change_percentage_24h := 0, volume_change_percentage_5m := 0 / 12,
               volume_change_percentage_1h := 0 * 1.5, volume_change_percentage_24h := 0 } := rfl

/-! ### Concrete batches used by examples, counterexamples and witnesses -/

/-- Two normalized assets: one with zero market cap and positive volume, one
ordinary (total market cap 100 > 0). -/
def c1batch : List ProcessedEntry := [mkEntry ("ZMC") 0 150, mkEntry ("BTC") 100 50]

/-- Two assets whose ratios are 150 and 200 in input (market-cap) order. -/
def c2batch : List ProcessedEntry := [mkEntry ("F") 100 150, mkEntry ("G") 100 200]

/-- Fields of a raw record with `current_price` 1 and
`price_change_percentage_24h` -100 (a dead coin whose price went to zero). -/
def c3fields : List (String × JsonVal) :=
  [("symbol", JsonVal.str ("BTC")), ("current_price", JsonVal.num 1),
   ("price_change_percentage_24h", JsonVal.num (-100)),
   ("total_volume", JsonVal.num 100)]

/-- The corresponding raw record. -/
def c3raw : JsonVal := JsonVal.obj c3fields

/-- The spec's worked example: market caps 100 and 300 (total 400). -/
def c45batch : List ProcessedEntry := [mkEntry ("X") 100 50, mkEntry ("Y") 300 50]

/-- Five assets, of which A, C, E have ratio > 100 (150, 200, 120) and
B, D do not (50 and exactly 100). -/
def c7batch : List ProcessedEntry :=
  [mkEntry ("A") 100 150, mkEntry ("B") 100 50, mkEntry ("C") 100 200,
   mkEntry ("D") 100 100, mkEntry ("E") 100 120]

/-- Five valid raw records with one non-mapping record interleaved. -/
def c9batch : List JsonVal :=
  [mkRawEntry ("V1") 100 50, mkRawEntry ("V2") 100 50, JsonVal.num 5,
   mkRawEntry ("V3") 100 50, mkRawEntry ("V4") 100 50, mkRawEntry ("V5") 100 50]

/-- Fields of a mapping with no `'symbol'` key whose numeric fields send the
24h volume-change computation into the division by zero. -/
def c10fields : List (String × JsonVal) :=
  [("current_price", JsonVal.num 1), ("price_change_percentage_24h", JsonVal.num (-100))]

/-- The corresponding raw record. -/
def c10raw : JsonVal := JsonVal.obj c10fields

theorem processEntry_none_of_vc_none {fields : List (String × JsonVal)}
    (h : volumeChange24h (safe_float (getField fields ("current_price")))
           (safe_float (getField fields ("price_change_percentage_24h")))
           (safe_float (getField fields ("total_volume"))) = none) :
    processEntry (JsonVal.obj fields) = none := by
  rw [processEntry_obj, h]
  rfl

/-! ### Claims -/

/-- C1, counterexample: on a batch with positive total market cap containing
an asset with `market_cap = 0` and `total_volume = 150`, the enriched ratio
column is `[inf, 50]` — the zero-market-cap asset's
`volume_market_cap_ratio_pct` is `+inf` (numpy division by zero, untouched
by the later `fillna`), not the finite 0 the claim asserts. -/
theorem C1_counterexample :
    (enrichData c1batch).map (fun r => r.volume_market_cap_ratio)
      = [PFloat.inf, PFloat.finite 50] ∧ PFloat.inf ≠ PFloat.finite 0 := by
  constructor
  · norm_num [c1batch, enrichData, totalMarketCap, mkEntry, divPF, coerceFill,
      PFloat.mapFinite, round2, roundHalfEven]
  · simp

/-- C1, amended: for every batch, when the total market cap is positive the
ratio column is `round2(total_volume / market_cap * 100)` for assets with a
nonzero market cap, while an asset with `market_cap = 0` gets `+inf` when its
volume is positive, `-inf` when negative, and 0 when zero (a NaN coerced by
`fillna(0.0)`); when the total market cap is not positive every ratio is 0. -/
theorem C1_ratio_formula (data : List ProcessedEntry) :
    (enrichData data).map (fun r => r.volume_market_cap_ratio)
      = data.map (fun e => specRatio (totalMarketCap data) e.total_volume e.market_cap) :=
  enrichData_ratio_eq_specRatio data

/-- C2, counterexample: the filter step performs no sort.  On a batch whose
two assets have ratios 150 and 200 in input order, both pass the default
filter and the output ratio column is `[150, 200]`, which is not
non-increasing — contradicting "ordered strictly descending by
`volume_market_cap_ratio_pct`". -/
theorem C2_counterexample :
    ¬ specRatioNonIncreasing (defaultFilter (enrichData c2batch)) := by
  intro h
  have hm : (defaultFilter (enrichData c2batch)).map
      (fun r => r.volume_market_cap_ratio.toRat) = [150, 200] := by
    norm_num [c2batch, defaultFilter, enrichData, totalMarketCap, mkEntry, divPF,
      coerceFill, PFloat.mapFinite, round2, roundHalfEven, PFloat.gtQ, PFloat.toRat,
      List.filter]
  have h2 : List.Chain' (fun a b : ℚ => b ≤ a)
      ((defaultFilter (enrichData c2batch)).map (fun r => r.volume_market_cap_ratio.toRat)) := by
    rw [List.chain'_map]
    exact h
  rw [hm] at h2
  have := List.chain'_cons.mp h2
  norm_num at this

/-- C2, amended: both filter modes perform pure selection — the output is an
order-preserving subsequence of the input Dataset (whose order is the
provider's market-cap-descending order), and no reordering by ratio
happens. -/
theorem C2_filter_preserves_input_order (rows : List EnrichedRow)
    (min_ratio min_volume min_dominance : ℚ) :
    (defaultFilter rows).Sublist rows
      ∧ (customFilter rows min_ratio min_volume min_dominance).Sublist rows :=
  ⟨List.filter_sublist rows, List.filter_sublist rows⟩

/-- C3, counterexample: at `current_price = 1`, `price_change_pct_24h = -100`
(price fell to zero) and `total_volume = 100`, the denominator
`1 + price_change_24h / 100` is zero and the computation raises
`ZeroDivisionError` (`none`), so it does not equal the claimed percentage
change and the whole record is dropped — contradicting "the computation
never fails with a division by zero for any input asset record". -/
theorem C3_counterexample :
    volumeChange24h 1 (-100) 100 = none ∧ processEntry c3raw = none := by
  have hv : volumeChange24h 1 (-100) 100 = none := by norm_num [volumeChange24h, pydiv]
  refine ⟨hv, ?_⟩
  show processEntry (JsonVal.obj c3fields) = none
  apply processEntry_none_of_vc_none
  show volumeChange24h 1 (-100) 100 = none
  exact hv

/-- C3, amended: the code's 24h volume-change computation agrees everywhere
with the spec formula amended as follows — for `current_price > 0` and
`price_change_pct_24h ∉ {0, -100}` it is the percentage change from the
implied prior volume (current volume scaled by implied-price / current-price)
when that prior volume is positive and 0 otherwise; for `current_price ≤ 0`
or `price_change_pct_24h = 0` it is 0; and for `price_change_pct_24h = -100`
with positive price it fails with a division by zero (`none`, the record is
skipped). -/
theorem C3_volume_change_formula (p pct v : ℚ) :
    volumeChange24h p pct v = specVolumeChange24h p pct v :=
  volumeChange24h_eq_spec p pct v

/-- C4: in every batch of normalized records (whose market caps are
nonnegative, the `AssetRecord` invariant), the dominance column equals
`round2(market_cap / total_market_cap * 100)` — where for a zero total the
formula value is 0, matching the guard — and when `total_market_cap = 0`
every asset's dominance is 0.  The enrichment is a total function: no error
reaches the caller. -/
theorem C4_dominance (data : List ProcessedEntry)
    (hnn : ∀ e ∈ data, 0 ≤ e.market_cap) :
    (enrichData data).map (fun r => r.market_dominance)
      = data.map (fun e =>
          PFloat.finite (round2 (e.market_cap / totalMarketCap data * 100)))
    ∧ (totalMarketCap data = 0 →
        ∀ r ∈ enrichData data, r.market_dominance = PFloat.finite 0) := by
  have round2_zero : round2 0 = 0 := by norm_num [round2, roundHalfEven]
  have htot : 0 ≤ totalMarketCap data := by
    unfold totalMarketCap
    apply List.sum_nonneg
    intro x hx
    obtain ⟨e, he, rfl⟩ := List.mem_map.mp hx
    exact hnn e he
  have hcaps_zero : totalMarketCap data = 0 → ∀ e ∈ data, e.market_cap = 0 := by
    intro hz e he
    exact eq_zero_of_mem_of_sum_eq_zero hnn hz he
  constructor
  · rcases lt_or_eq_of_le htot with hpos | hzero
    · exact enrichData_dominance_of_pos hpos
    · have hz : totalMarketCap data = 0 := hzero.symm
      unfold enrichData
      rw [if_neg (by rw [hz]; exact lt_irrefl 0)]
      rw [List.map_map]
      apply List.map_congr_left
      intro e he
      simp [Function.comp, hcaps_zero hz e he, round2_zero]
  · intro hz r hr
    unfold enrichData at hr
    rw [if_neg (by rw [hz]; exact lt_irrefl 0)] at hr
    obtain ⟨e, _, rfl⟩ := List.mem_map.mp hr
    rfl

/-- C4 witness: the spec's worked example — market caps 100 and 300 give
dominances 25.00 and 75.00. -/
theorem C4_dominance_witness :
    (enrichData c45batch).map (fun r => r.market_dominance)
      = [PFloat.finite 25, PFloat.finite 75] := by
  have h := (C4_dominance c45batch (by norm_num [c45batch, mkEntry])).1
  rw [h]
  norm_num [c45batch, totalMarketCap, mkEntry, round2, roundHalfEven]

/-- C5: with nonnegative market caps and a positive total market cap, every
dominance is a finite value in [0, 100] and the dominance column sums to 100
up to the accumulated rounding error (at most 1/200 per asset). -/
theorem C5_dominance_bounds (data : List ProcessedEntry)
    (hnn : ∀ e ∈ data, 0 ≤ e.market_cap)
    (hpos : 0 < totalMarketCap data) :
    (∀ r ∈ enrichData data,
        ∃ q, r.market_dominance = PFloat.finite q ∧ 0 ≤ q ∧ q ≤ 100)
    ∧ |((enrichData data).map (fun r => r.market_dominance.toRat)).sum - 100|
        ≤ (data.length : ℚ) / 200 := by
  have hmap := enrichData_dominance_of_pos hpos
  have hxb : ∀ e ∈ data,
      0 ≤ e.market_cap / totalMarketCap data * 100
        ∧ e.market_cap / totalMarketCap data * 100 ≤ 100 := by
    intro e he
    have h0 : 0 ≤ e.market_cap := hnn e he
    have hle : e.market_cap ≤ totalMarketCap data := by
      unfold totalMarketCap
      apply List.single_le_sum
      · intro x hx
        obtain ⟨e2, he2, rfl⟩ := List.mem_map.mp hx
        exact hnn e2 he2
      · exact List.mem_map.mpr ⟨e, he, rfl⟩
    have hd0 : 0 ≤ e.market_cap / totalMarketCap data := div_nonneg h0 hpos.le
    have hd1 : e.market_cap / totalMarketCap data ≤ 1 := (div_le_one hpos).mpr hle
    constructor
    · nlinarith
    · nlinarith
  constructor
  · intro r hr
    have hmem : r.market_dominance
        ∈ (enrichData data).map (fun r => r.market_dominance) :=
      List.mem_map_of_mem _ hr
    rw [hmap] at hmem
    obtain ⟨e, he, heq⟩ := List.mem_map.mp hmem
    exact ⟨round2 (e.market_cap / totalMarketCap data * 100), heq.symm,
      round2_nonneg (hxb e he).1, round2_le_hundred (hxb e he).2⟩
  · have hsum_eq : ((enrichData data).map (fun r => r.market_dominance.toRat)).sum
        = (data.map (fun e => round2 (e.market_cap / totalMarketCap data * 100))).sum := by
      have hcomp : (enrichData data).map (fun r => r.market_dominance.toRat)
          = ((enrichData data).map (fun r => r.market_dominance)).map PFloat.toRat := by
        rw [List.map_map]
        exact List.map_congr_left (fun r _ => rfl)
      rw [hcomp, hmap, List.map_map]
      exact congrArg List.sum (List.map_congr_left (fun e _ => rfl))
    have hx_sum : (data.map (fun e => e.market_cap / totalMarketCap data * 100)).sum
        = 100 := by
      have hrw : data.map (fun e => e.market_cap / totalMarketCap data * 100)
          = data.map (fun e => e.market_cap * (100 / totalMarketCap data)) := by
        apply List.map_congr_left
        intro e _
        ring
      rw [hrw, sum_map_mul_right]
      have hsum : (data.map (fun e => e.market_cap)).sum = totalMarketCap data := rfl
      rw [hsum]
      field_simp
    have hbound := abs_sum_sub_sum_le data
      (fun e => round2 (e.market_cap / totalMarketCap data * 100))
      (fun e => e.market_cap / totalMarketCap data * 100) (1 / 200)
      (fun a _ => round2_sub_le _)
    rw [hx_sum] at hbound
    rw [hsum_eq]
    calc |(data.map (fun e => round2 (e.market_cap / totalMarketCap data * 100))).sum - 100|
        ≤ (data.length : ℚ) * (1 / 200) := hbound
      _ = (data.length : ℚ) / 200 := by ring

/-- C5 witness: the sum bound instantiated at the two-asset example batch. -/
theorem C5_dominance_bounds_witness :
    |((enrichData c45batch).map (fun r => r.market_dominance.toRat)).sum - 100|
      ≤ (c45batch.length : ℚ) / 200 :=
  (C5_dominance_bounds c45batch (by norm_num [c45batch, mkEntry])
    (by norm_num [c45batch, totalMarketCap, mkEntry])).2

/-- C6: an asset row is in the custom-filter output exactly when it is in
the Dataset and passes all three threshold comparisons (ratio, volume,
dominance), with the comparisons evaluated as pandas evaluates them. -/
theorem C6_custom_filter_membership (rows : List EnrichedRow)
    (min_ratio min_volume min_dominance : ℚ) (r : EnrichedRow) :
    r ∈ customFilter rows min_ratio min_volume min_dominance
      ↔ r ∈ rows ∧ r.volume_market_cap_ratio.geQ min_ratio = true
          ∧ min_volume ≤ r.entry.total_volume
          ∧ r.market_dominance.geQ min_dominance = true := by
  unfold customFilter
  rw [List.mem_filter]
  simp [Bool.and_eq_true, decide_eq_true_iff, and_assoc]

/-- C7: the default mode selects exactly the rows with ratio strictly above
100, and on the five-asset example batch (ratios 150, 50, 200, 100, 120) it
returns exactly the three assets A, C, E. -/
theorem C7_default_filter :
    (∀ (rows : List EnrichedRow) (r : EnrichedRow),
        r ∈ defaultFilter rows ↔ r ∈ rows ∧ r.volume_market_cap_ratio.gtQ 100 = true)
    ∧ (defaultFilter (enrichData c7batch)).map (fun r => r.entry.symbol)
        = [("A"), ("C"), ("E")] := by
  constructor
  · intro rows r
    unfold defaultFilter
    exact List.mem_filter
  · norm_num [c7batch, defaultFilter, enrichData, totalMarketCap, mkEntry, divPF,
      coerceFill, PFloat.mapFinite, round2, roundHalfEven, PFloat.gtQ, List.filter]

theorem processEntry_none_of_symbol_none {fields : List (String × JsonVal)}
    (h : getSymbol fields = none) : processEntry (JsonVal.obj fields) = none := by
  rw [processEntry_obj]
  cases hvc : volumeChange24h (safe_float (getField fields ("current_price")))
      (safe_float (getField fields ("price_change_percentage_24h")))
      (safe_float (getField fields ("total_volume"))) with
  | none => rfl
  | some a => simp [h]

/-- C8: the request loop of `_make_request` never raises to its caller (the
model is exception-free by construction) and behaves per attempt outcome as
the claim states: an HTTP 429 sleeps 60 seconds and retries the same request
with no retry bound (any number `n` of consecutive 429s is followed through,
accumulating `60 * n` seconds of blocking waits), while a timeout/connection
error or any other non-success status returns `None` immediately — no
retry — which `get_market_data` turns into the empty result. -/
theorem C8_request_semantics (rest : List Attempt) (b : List JsonVal) (n : ℕ) :
    makeRequest (Attempt.rateLimited :: rest)
        = ((makeRequest rest).1, 60 + (makeRequest rest).2)
      ∧ makeRequest (Attempt.httpError :: rest) = (some none, 0)
      ∧ makeRequest (Attempt.transportError :: rest) = (some none, 0)
      ∧ makeRequest (Attempt.ok b :: rest) = (some (some b), 0)
      ∧ makeRequest (List.replicate n Attempt.rateLimited ++ [Attempt.ok b])
          = (some (some b), 60 * n)
      ∧ fetchMarketData (Attempt.httpError :: rest) = some []
      ∧ fetchMarketData (Attempt.transportError :: rest) = some [] := by
  refine ⟨rfl, rfl, rfl, rfl, ?_, rfl, rfl⟩
  induction n with
  | zero => rfl
  | succ k ih =>
      rw [List.replicate_succ, List.cons_append]
      show ((makeRequest (List.replicate k Attempt.rateLimited ++ [Attempt.ok b])).1,
          60 + (makeRequest (List.replicate k Attempt.rateLimited ++ [Attempt.ok b])).2)
        = (some (some b), 60 * (k + 1))
      rw [ih]
      simp
      omega

/-- C9, counterexample: a non-mapping record interleaved among five valid
raw records yields five normalized assets, not the four the claim states
(the only dropped record is the non-mapping one). -/
theorem C9_counterexample :
    processEntry (JsonVal.num 5) = none
      ∧ (get_market_data (some c9batch)).length = 5 := by
  have h5 : processEntry (JsonVal.num 5) = none := rfl
  refine ⟨h5, ?_⟩
  simp [c9batch, get_market_data, processEntry_mkRawEntry, h5]

/-- C9, amended: a non-mapping record anywhere in the batch is skipped and
the remaining records are processed unchanged (no error, no aborted fetch),
and the six-record batch with five valid records and one non-mapping yields
exactly five normalized assets. -/
theorem C9_skip_non_mapping :
    (∀ (xs ys : List JsonVal) (e : JsonVal), e.isObj = false →
        get_market_data (some (xs ++ e :: ys)) = get_market_data (some (xs ++ ys)))
    ∧ (get_market_data (some c9batch)).length = 5 := by
  constructor
  · intro xs ys e he
    exact get_market_data_skip xs ys (processEntry_not_obj he)
  · have h5 : processEntry (JsonVal.num 5) = none := rfl
    simp [c9batch, get_market_data, processEntry_mkRawEntry, h5]

/-- C9 witness: the skip property applied at a concrete batch with the
non-mapping record `5` between two valid records. -/
theorem C9_skip_non_mapping_witness :
    get_market_data (some ([mkRawEntry ("V1") 100 50] ++ JsonVal.num 5 :: [mkRawEntry ("V2") 100 50]))
      = get_market_data (some ([mkRawEntry ("V1") 100 50] ++ [mkRawEntry ("V2") 100 50])) :=
  C9_skip_non_mapping.1 [mkRawEntry ("V1") 100 50] [mkRawEntry ("V2") 100 50]
    (JsonVal.num 5) rfl

/-- C10, counterexample: a mapping whose `'symbol'` key is absent is *not*
always normalized with an empty-string symbol — with `current_price = 1` and
`price_change_percentage_24h = -100` the 24h volume-change computation
raises first and the whole record is dropped. -/
theorem C10_counterexample : processEntry c10raw = none := by
  show processEntry (JsonVal.obj c10fields) = none
  apply processEntry_none_of_vc_none
  show volumeChange24h 1 (-100) 0 = none
  norm_num [volumeChange24h, pydiv]

/-- C10, amended: a mapping whose `'symbol'` key holds a non-string (null
included) is dropped entirely; a mapping with no `'symbol'` key *and* whose
24h volume-change computation does not raise is normalized with the empty
string as its symbol; and a dropped record never aborts the batch — the
remaining records are processed either way. -/
theorem C10_symbol_normalization :
    (∀ (fields : List (String × JsonVal)) (v : JsonVal),
        getField fields ("symbol") = some v → v.isStr = false →
        processEntry (JsonVal.obj fields) = none)
    ∧ (∀ (fields : List (String × JsonVal)) (q : ℚ),
        getField fields ("symbol") = none →
        volumeChange24h (safe_float (getField fields ("current_price")))
            (safe_float (getField fields ("price_change_percentage_24h")))
            (safe_float (getField fields ("total_volume"))) = some q →
        ∃ r, processEntry (JsonVal.obj fields) = some r ∧ r.symbol = "")
    ∧ (∀ (xs ys : List JsonVal) (fields : List (String × JsonVal)),
        processEntry (JsonVal.obj fields) = none →
        get_market_data (some (xs ++ JsonVal.obj fields :: ys))
          = get_market_data (some (xs ++ ys))) := by
  refine ⟨?_, ?_, ?_⟩
  · intro fields v hv hns
    apply processEntry_none_of_symbol_none
    unfold getSymbol
    rw [hv]
    cases v <;> simp_all [JsonVal.isStr]
  · intro fields q hnone hvc
    have hsym : getSymbol fields = some ("") := by
      unfold getSymbol
      rw [hnone]
    refine ⟨{ id := (getField fields ("id")).getD (JsonVal.str (""))
              name := (getField fields ("name")).getD (JsonVal.str (""))
              symbol := ""
              current_price := safe_float (getField fields ("current_price"))
              market_cap := safe_float (getField fields ("market_cap"))
              total_volume := safe_float (getField fields ("total_volume"))
              price_change_percentage_24h :=
                safe_float (getField fields ("price_change_percentage_24h"))
              volume_change_percentage_5m :=
                safe_float (getField fields ("price_change_percentage_1h_in_currency")) / 12
              volume_change_percentage_1h :=
                safe_float (getField fields ("price_change_percentage_1h_in_currency")) * 1.5
              volume_change_percentage_24h := q }, ?_, rfl⟩
    rw [processEntry_obj, hvc]
    simp only [Option.bind]
    rw [hsym]
    simp only [Option.map]
  · intro xs ys fields h
    exact get_market_data_skip xs ys h

/-- C10 witness: a record with `'symbol': null` is dropped, and a record
with no `'symbol'` key (and benign numeric fields) is normalized with the
empty-string symbol. -/
theorem C10_symbol_normalization_witness :
    processEntry (JsonVal.obj [("symbol", JsonVal.null)]) = none
      ∧ (processEntry (JsonVal.obj ([] : List (String × JsonVal)))).map
          (fun r => r.symbol) = some ("") := by
  constructor
  · exact C10_symbol_normalization.1 [("symbol", JsonVal.null)] JsonVal.null rfl rfl
  · obtain ⟨r, hr, hs⟩ := C10_symbol_normalization.2.1 [] 0 rfl rfl
    simp [hr, hs]

/-- A single enriched row used to instantiate the filter membership
criteria. -/
def wRow : EnrichedRow :=
  { entry := mkEntry ("W") 100 150
    volume_market_cap_ratio := PFloat.finite 150
    market_dominance := PFloat.finite 100 }

/-- C6 witness: the membership equivalence applied at a concrete row and
concrete (all-zero) criteria. -/
theorem C6_custom_filter_membership_witness : wRow ∈ customFilter [wRow] 0 0 0 :=
  (C6_custom_filter_membership [wRow] 0 0 0 wRow).mpr
    ⟨by simp, by norm_num [PFloat.geQ, wRow], by norm_num [wRow, mkEntry],
     by norm_num [PFloat.geQ, wRow]⟩

/-- C7 witness: the concrete five-asset instance of the default mode. -/
theorem C7_default_filter_witness :
    (defaultFilter (enrichData c7batch)).map (fun r => r.entry.symbol)
      = [("A"), ("C"), ("E")] :=
  C7_default_filter.2

/-- C8 witness: one 429 followed by a success — the request is retried after
a 60-second wait and the body is returned. -/
theorem C8_request_semantics_witness :
    makeRequest (List.replicate 1 Attempt.rateLimited ++ [Attempt.ok ([] : List JsonVal)])
      = (some (some ([] : List JsonVal)), 60 * 1) :=
  (C8_request_semantics [] [] 1).2.2.2.2.1
